import Mathlib

/-!
Verification of the LiteSVM execution-harness specification.

The repository under verification is the documentation of the LiteSVM
in-process Solana test harness; the harness implementation itself (account
store, blockhash queue, sysvar registry, transaction-history buffer,
transaction pipeline, harness facade) is not part of the source tree, only
its documentation is.  Every definition below is therefore modelled from
the specification text, faithful to its words, and each doc comment says
so explicitly.  External collaborators (the bytecode program executor,
cryptographic signature verification, serialization codecs) are modelled
as opaque data carried by the transaction: an instruction records the
outcome the executor would report (success flag, compute units, logs,
account writes), and a transaction records whether its signatures verify.
-/

namespace LiteSVM

/-- Modelled from the spec: an account record — lamport balance (unsigned
64-bit, represented as a `Nat` with overflow checked explicitly against
`2^64`), owner address, raw data buffer, executable flag, rent epoch.
Addresses and data bytes are modelled as `Nat`. -/
structure Account where
  lamports : Nat
  owner : Nat
  data : List Nat
  executable : Bool
  rentEpoch : Nat
deriving DecidableEq, Repr

/-- Modelled from the spec: the system program is the default owner for
uninitialized addresses. -/
def systemProgramId : Nat := 0

/-- Modelled from the spec: the default (uninitialized) account: zero
lamports, system-program owner, empty data. -/
def defaultAccount : Account :=
  { lamports := 0, owner := systemProgramId, data := [], executable := false, rentEpoch := 0 }

/-- Modelled from the spec: the Account Store is a keyed mapping from
address to account record, here an association list. -/
abbrev AccountMap := List (Nat × Account)

/-- Modelled from the spec: Account Store read — `get(address) -> Account option`. -/
def mapGet (m : AccountMap) (a : Nat) : Option Account :=
  (m.find? (fun p => p.1 == a)).map (fun p => p.2)

/-- Modelled from the spec: Account Store write — replaces the full account
record atomically; creates the entry on first write. -/
def mapSet (m : AccountMap) (a : Nat) (acc : Account) : AccountMap :=
  match m with
  | [] => [(a, acc)]
  | (k, v) :: rest => if k == a then (k, acc) :: rest else (k, v) :: mapSet rest a acc

/-- Modelled from the spec: the Blockhash Queue, a rolling window of
recently valid block hashes; `counter` is the source of freshly derived
hashes, so every hash ever inserted is distinct. -/
structure BlockhashQueue where
  hashes : List Nat
  capacity : Nat
  counter : Nat
deriving DecidableEq, Repr

/-- Modelled from the spec: `latest() -> hash`. -/
def BlockhashQueue.latest (q : BlockhashQueue) : Nat := q.hashes.headD 0

/-- Modelled from the spec: `is_valid(hash) -> bool` — membership in the queue. -/
def BlockhashQueue.isValid (q : BlockhashQueue) (h : Nat) : Bool := q.hashes.contains h

/-- Modelled from the spec: `expire_current()` — forcibly advances past the
validity window without waiting for the normal cadence: a freshly derived
hash becomes the latest and the previously obtained hashes are no longer
present in the queue, so a transaction still declaring one of them fails
with `BlockhashNotFound` (the documented expiry scenario). -/
def BlockhashQueue.expireCurrent (q : BlockhashQueue) : BlockhashQueue :=
  { hashes := [q.counter], capacity := q.capacity, counter := q.counter + 1 }

/-- Modelled from the spec: the Clock sysvar record — slot, epoch, unix
timestamp, leader-schedule epoch. -/
structure Clock where
  slot : Nat
  epoch : Nat
  unixTimestamp : Int
  leaderScheduleEpoch : Nat
deriving DecidableEq, Repr

/-- Modelled from the spec: the library-defined default Clock a freshly
constructed harness is seeded with. -/
def Clock.defaultValue : Clock :=
  { slot := 0, epoch := 0, unixTimestamp := 0, leaderScheduleEpoch := 0 }

/-- Modelled from the spec: the Rent sysvar record — lamports-per-byte-year,
exemption threshold, burn percent (the real threshold is a float; the claims
never inspect it, so it is modelled as a `Nat`). -/
structure Rent where
  lamportsPerByteYear : Nat
  exemptionThreshold : Nat
  burnPercent : Nat
deriving DecidableEq, Repr

/-- Modelled from the spec: the library-defined default Rent a freshly
constructed harness is seeded with (values from the documentation's
custom-sysvar example). -/
def Rent.defaultValue : Rent :=
  { lamportsPerByteYear := 3480, exemptionThreshold := 2, burnPercent := 50 }

/-- Modelled from the spec: the EpochSchedule sysvar record —
slots-per-epoch, warmup flag, offsets. -/
structure EpochSchedule where
  slotsPerEpoch : Nat
  leaderScheduleSlotOffset : Nat
  warmup : Bool
  firstNormalEpoch : Nat
  firstNormalSlot : Nat
deriving DecidableEq, Repr

/-- Modelled from the spec: the library-defined default EpochSchedule a
freshly constructed harness is seeded with. -/
def EpochSchedule.defaultValue : EpochSchedule :=
  { slotsPerEpoch := 432000, leaderScheduleSlotOffset := 432000, warmup := false
    firstNormalEpoch := 0, firstNormalSlot := 0 }

/-- Modelled from the spec: the per-transaction compute budget ceilings. -/
structure ComputeBudget where
  unitLimit : Nat
  heapSize : Nat
  stackFrameSize : Nat
  logUnitCap : Nat
deriving DecidableEq, Repr

/-- Modelled from the spec: the immutable harness configuration record —
sigverify toggle, blockhash-check toggle, transaction-history capacity,
starting lamports, compute budget, and the Account Store's configured
maximum account size. -/
structure Config where
  sigverify : Bool
  blockhashCheck : Bool
  historyCapacity : Nat
  startingLamports : Nat
  maxAccountSize : Nat
  budget : ComputeBudget
deriving DecidableEq, Repr

/-- Modelled from the spec: the error taxonomy of §7. -/
inductive Err where
  | alreadyProcessed
  | blockhashNotFound
  | signatureVerificationFailed
  | insufficientFundsForFee
  | instructionError (index : Nat) (detail : Nat)
  | callDepthExceeded
  | computeBudgetExceeded
  | invalidAccountData
  | programTooLarge
  | invalidElf
  | arithmeticOverflow
deriving DecidableEq, Repr

/-- Modelled from the spec: success metadata — compute units consumed and
ordered log lines (log lines modelled as abstract `Nat` tokens). -/
structure Meta where
  computeUnits : Nat
  logs : List Nat
deriving DecidableEq, Repr

/-- Modelled from the spec: `FailedTransaction` carries the error kind plus
the metadata captured up to the point of failure. -/
structure FailedTx where
  err : Err
  meta : Meta
deriving DecidableEq, Repr

/-- Modelled from the spec: a transaction outcome — success metadata or a
failure record. -/
abbrev TxResult := Except FailedTx Meta

instance : DecidableEq TxResult := fun x y =>
  match x, y with
  | Except.ok a, Except.ok b =>
    if h : a = b then isTrue (by rw [h]) else isFalse (fun he => by cases he; exact h rfl)
  | Except.error a, Except.error b =>
    if h : a = b then isTrue (by rw [h]) else isFalse (fun he => by cases he; exact h rfl)
  | Except.ok _, Except.error _ => isFalse (fun he => by cases he)
  | Except.error _, Except.ok _ => isFalse (fun he => by cases he)

/-- Modelled from the spec: one instruction, with the opaque Program
Executor's reported outcome recorded as data — compute units it consumes,
logs it emits, whether it succeeds, its error detail on failure, and the
account writes it proposes on success. -/
structure Instr where
  programId : Nat
  computeUnits : Nat
  logs : List Nat
  succeeds : Bool
  errDetail : Nat
  writes : List (Nat × Account)
deriving DecidableEq, Repr

/-- Modelled from the spec: a transaction — signature, declared blockhash,
fee payer, the external signature verifier's verdict recorded as data,
message size and compute-unit price (the fee inputs), and the instruction
list. -/
structure Tx where
  signature : Nat
  blockhash : Nat
  feePayer : Nat
  sigsValid : Bool
  msgSize : Nat
  computeUnitPrice : Nat
  instructions : List Instr
deriving DecidableEq, Repr

/-- Modelled from the spec: the fee is computed from the message size and
the compute-unit price. -/
def computeFee (t : Tx) : Nat := t.msgSize + t.computeUnitPrice

/-- Modelled from the spec: the Transaction History Buffer — a bounded list
mapping signature to outcome, newest first. -/
abbrev History := List (Nat × TxResult)

/-- Modelled from the spec: `record(signature, outcome)` — a retention of
zero disables recording entirely; otherwise the newest entry is kept and
the oldest dropped once capacity is reached. -/
def recordHistory (cap : Nat) (hist : History) (sig : Nat) (r : TxResult) : History :=
  if cap = 0 then hist else ((sig, r) :: hist).take cap

/-- Modelled from the spec: `lookup(signature) -> outcome option`; evicted
signatures report not-found. -/
def lookupHistory (hist : History) (sig : Nat) : Option TxResult :=
  (hist.find? (fun p => p.1 == sig)).map (fun p => p.2)

/-- Modelled from the spec: the harness state — configuration plus the
Account Store, Blockhash Queue, Sysvar Registry (Clock, Rent,
EpochSchedule) and Transaction History Buffer, all exclusively owned by
one instance. -/
structure Harness where
  cfg : Config
  accounts : AccountMap
  queue : BlockhashQueue
  clock : Clock
  rent : Rent
  epochSchedule : EpochSchedule
  history : History
deriving DecidableEq, Repr

/-- Modelled from the spec: `new(config)` — a freshly constructed harness
seeds all sysvars with sensible defaults before any caller write, starts
with an empty Account Store and history, and a blockhash queue holding one
genesis hash. -/
def newHarness (cfg : Config) : Harness :=
  { cfg := cfg
    accounts := []
    queue := { hashes := [0], capacity := 150, counter := 1 }
    clock := Clock.defaultValue
    rent := Rent.defaultValue
    epochSchedule := EpochSchedule.defaultValue
    history := [] }

/-- Modelled from the spec: `get_account(address) -> Account option`. -/
def getAccount (h : Harness) (p : Nat) : Option Account := mapGet h.accounts p

/-- Modelled from the spec: `get_balance(address) -> uint option`. -/
def getBalance (h : Harness) (p : Nat) : Option Nat :=
  (getAccount h p).map (fun a => a.lamports)

/-- Modelled from the spec: `set_account(address, Account)` — the
privileged store-level write path; fails with `InvalidAccountData` if the
data exceeds the configured maximum account size. -/
def setAccount (h : Harness) (p : Nat) (a : Account) : Except Err Harness :=
  if h.cfg.maxAccountSize < a.data.length then Except.error Err.invalidAccountData
  else Except.ok { h with accounts := mapSet h.accounts p a }

/-- Modelled from the spec: `airdrop(address, lamports)` — credits lamports
unconditionally, creating the account with the system-program owner when
absent; fails only when the credited balance would overflow the unsigned
64-bit range. -/
def creditedAccount (h : Harness) (p : Nat) (x : Nat) : Account :=
  { (getAccount h p).getD defaultAccount with
    lamports := ((getAccount h p).getD defaultAccount).lamports + x }

/-- Modelled from the spec: `airdrop(address, lamports)` — see
`creditedAccount` for the credited record. -/
def airdrop (h : Harness) (p : Nat) (x : Nat) : Except Err Harness :=
  if 2 ^ 64 ≤ ((getAccount h p).getD defaultAccount).lamports + x then
    Except.error Err.arithmeticOverflow
  else
    Except.ok { h with accounts := mapSet h.accounts p (creditedAccount h p x) }

/-- Modelled from the spec: `deploy_program(address, bytes)` — stores an
executable account owned by itself holding the program bytes; an empty
payload models a malformed binary rejected with `InvalidElf`. -/
def deployProgram (h : Harness) (p : Nat) (bytes : List Nat) : Except Err Harness :=
  if bytes.isEmpty then Except.error Err.invalidElf
  else Except.ok { h with accounts := mapSet h.accounts p { lamports := 1, owner := p, data := bytes, executable := true, rentEpoch := 0 } }

/-- Modelled from the spec: `latest_blockhash() -> Hash`. -/
def latestBlockhash (h : Harness) : Nat := h.queue.latest

/-- Modelled from the spec: `expire_blockhash()` — forcibly advances the
queue without waiting for the normal cadence. -/
def expireBlockhash (h : Harness) : Harness := { h with queue := h.queue.expireCurrent }

/-- Modelled from the spec: `warp_to_slot(n)` — a harness-level operation
taking effect immediately on the Clock sysvar. -/
def warpToSlot (h : Harness) (n : Nat) : Harness :=
  { h with clock := { h.clock with slot := n } }

/-- Modelled from the spec: `get_sysvar<Clock>()` — decodes the reserved
account into the structured Clock record; total, never an error. -/
def getClockSysvar (h : Harness) : Clock := h.clock

/-- Modelled from the spec: `get_sysvar<Rent>()`. -/
def getRentSysvar (h : Harness) : Rent := h.rent

/-- Modelled from the spec: `get_sysvar<EpochSchedule>()`. -/
def getEpochScheduleSysvar (h : Harness) : EpochSchedule := h.epochSchedule

/-- Modelled from the spec: `set_sysvar<Clock>(value)` — the dedicated
setter, the only write path to a sysvar. -/
def setClockSysvar (h : Harness) (c : Clock) : Harness := { h with clock := c }

/-- Modelled from the spec: `set_sysvar<Rent>(value)`. -/
def setRentSysvar (h : Harness) (r : Rent) : Harness := { h with rent := r }

/-- Modelled from the spec: `set_sysvar<EpochSchedule>(value)`. -/
def setEpochScheduleSysvar (h : Harness) (e : EpochSchedule) : Harness :=
  { h with epochSchedule := e }

/-- Modelled from the spec: `get_transaction(signature) -> Outcome option`. -/
def getTransaction (h : Harness) (sig : Nat) : Option TxResult :=
  lookupHistory h.history sig

/-- Modelled from the spec: pipeline stage 1 condition — history retention
is enabled and the signature is already recorded. -/
def dupCheckFails (h : Harness) (t : Tx) : Bool :=
  (h.cfg.historyCapacity != 0) && (lookupHistory h.history t.signature).isSome

/-- Modelled from the spec: pipeline stage 2 condition — blockhash checking
is enabled and the declared hash is absent from the queue. -/
def blockhashCheckFails (h : Harness) (t : Tx) : Bool :=
  h.cfg.blockhashCheck && !(h.queue.isValid t.blockhash)

/-- Modelled from the spec: pipeline stage 3 condition — signature
verification is enabled and the external verifier rejects. -/
def sigCheckFails (h : Harness) (t : Tx) : Bool :=
  h.cfg.sigverify && !t.sigsValid

/-- Modelled from the spec: the fee payer's current lamport balance, zero
for an uninitialized address. -/
def payerBalance (h : Harness) (t : Tx) : Nat :=
  ((getAccount h t.feePayer).getD defaultAccount).lamports

/-- Modelled from the spec: pipeline stage 4 condition — the fee payer's
balance does not cover the fee. -/
def feeCheckFails (h : Harness) (t : Tx) : Bool :=
  payerBalance h t < computeFee t

/-- Modelled from the spec: apply a list of proposed account writes to the
proposed delta map. -/
def applyWrites (m : AccountMap) : List (Nat × Account) → AccountMap
  | [] => m
  | (a, acc) :: rest => applyWrites (mapSet m a acc) rest

/-- Modelled from the spec: pipeline stage 5 — execute the instructions in
order against the proposed delta, decrementing the shared compute budget
cumulatively; exceeding the unit limit aborts with
`ComputeBudgetExceeded`, an executor-reported failure aborts with
`InstructionError` at the failing index, and either abort keeps the logs
and compute units captured so far. -/
def execInstrs (limit : Nat) : Nat → Nat → List Nat → AccountMap → List Instr →
    Except FailedTx (Nat × List Nat × AccountMap)
  | _, units, logs, delta, [] => Except.ok (units, logs, delta)
  | idx, units, logs, delta, i :: rest =>
    if limit < units + i.computeUnits then
      Except.error { err := Err.computeBudgetExceeded
                     meta := { computeUnits := units + i.computeUnits, logs := logs ++ i.logs } }
    else if i.succeeds then
      execInstrs limit (idx + 1) (units + i.computeUnits) (logs ++ i.logs)
        (applyWrites delta i.writes) rest
    else
      Except.error { err := Err.instructionError idx i.errDetail
                     meta := { computeUnits := units + i.computeUnits, logs := logs ++ i.logs } }

/-- Modelled from the spec: the Transaction Pipeline states in strict
order — duplicate check, blockhash validation, signature verification, fee
computation and deduction into the proposed delta (not the committed
store), then instruction execution.  Returns the success metadata together
with the proposed account-state delta, or the failure. -/
def runPipeline (h : Harness) (t : Tx) : Except FailedTx (Meta × AccountMap) :=
  if dupCheckFails h t then
    Except.error { err := Err.alreadyProcessed, meta := { computeUnits := 0, logs := [] } }
  else if blockhashCheckFails h t then
    Except.error { err := Err.blockhashNotFound, meta := { computeUnits := 0, logs := [] } }
  else if sigCheckFails h t then
    Except.error { err := Err.signatureVerificationFailed, meta := { computeUnits := 0, logs := [] } }
  else if feeCheckFails h t then
    Except.error { err := Err.insufficientFundsForFee, meta := { computeUnits := 0, logs := [] } }
  else
    let payer := (getAccount h t.feePayer).getD defaultAccount
    let delta0 := mapSet h.accounts t.feePayer { payer with lamports := payer.lamports - computeFee t }
    match execInstrs h.cfg.budget.unitLimit 0 0 [] delta0 t.instructions with
    | Except.ok (units, logs, delta) =>
        Except.ok ({ computeUnits := units, logs := logs }, delta)
    | Except.error f => Except.error f

/-- Modelled from the spec: `send_transaction` — runs the full pipeline;
on success it atomically replaces the Account Store with the proposed
delta, and the processed transaction's outcome is appended to history
(when retention is enabled) whether it succeeded or failed; on failure the
Account Store is left exactly as it was. -/
def sendTransaction (h : Harness) (t : Tx) : Harness × TxResult :=
  match runPipeline h t with
  | Except.ok (m, delta) =>
      ({ h with accounts := delta
                history := recordHistory h.cfg.historyCapacity h.history t.signature (Except.ok m) },
       Except.ok m)
  | Except.error f =>
      ({ h with history := recordHistory h.cfg.historyCapacity h.history t.signature (Except.error f) },
       Except.error f)

/-- Modelled from the spec: `simulate_transaction` — runs the pipeline but
discards the proposed deltas unconditionally, regardless of outcome, and
returns the same metadata the send path would have produced. -/
def simulateTransaction (h : Harness) (t : Tx) : Harness × TxResult :=
  (h,
   match runPipeline h t with
   | Except.ok (m, _) => Except.ok m
   | Except.error f => Except.error f)

/-- Modelled from the spec: a facade operation, for stating determinism of
operation sequences. -/
inductive Op where
  | deploy (addr : Nat) (bytes : List Nat)
  | airdrop (addr : Nat) (amount : Nat)
  | setAcc (addr : Nat) (a : Account)
  | send (t : Tx)
  | simulate (t : Tx)
  | warp (slot : Nat)
  | setClock (c : Clock)
  | setRent (r : Rent)
  | setEpochSchedule (e : EpochSchedule)
  | getAcc (addr : Nat)
  | getBal (addr : Nat)
  | getTx (sig : Nat)
  | latestHash
  | expire
deriving DecidableEq, Repr

/-- Modelled from the spec: the observable result of one facade operation —
returned values, errors, balances, logs and compute-unit counts. -/
inductive OpResult where
  | done
  | failed (e : Err)
  | txRes (r : TxResult)
  | acc (a : Option Account)
  | bal (b : Option Nat)
  | outcome (o : Option TxResult)
  | hash (v : Nat)
deriving DecidableEq, Repr

/-- Modelled from the spec: run one facade operation against the harness,
returning the new state and the observable result. -/
def stepOp (h : Harness) : Op → Harness × OpResult
  | Op.deploy a bs =>
    match deployProgram h a bs with
    | Except.ok h' => (h', OpResult.done)
    | Except.error e => (h, OpResult.failed e)
  | Op.airdrop a x =>
    match airdrop h a x with
    | Except.ok h' => (h', OpResult.done)
    | Except.error e => (h, OpResult.failed e)
  | Op.setAcc a acc =>
    match setAccount h a acc with
    | Except.ok h' => (h', OpResult.done)
    | Except.error e => (h, OpResult.failed e)
  | Op.send t =>
    let s := sendTransaction h t
    (s.1, OpResult.txRes s.2)
  | Op.simulate t =>
    let s := simulateTransaction h t
    (s.1, OpResult.txRes s.2)
  | Op.warp n => (warpToSlot h n, OpResult.done)
  | Op.setClock c => (setClockSysvar h c, OpResult.done)
  | Op.setRent r => (setRentSysvar h r, OpResult.done)
  | Op.setEpochSchedule e => (setEpochScheduleSysvar h e, OpResult.done)
  | Op.getAcc a => (h, OpResult.acc (getAccount h a))
  | Op.getBal a => (h, OpResult.bal (getBalance h a))
  | Op.getTx sig => (h, OpResult.outcome (getTransaction h sig))
  | Op.latestHash => (h, OpResult.hash (latestBlockhash h))
  | Op.expire => (expireBlockhash h, OpResult.done)

/-- Modelled from the spec: run a finite sequence of facade operations,
collecting the observable result of every step. -/
def runTrace (h : Harness) : List Op → List OpResult
  | [] => []
  | op :: rest =>
    let s := stepOp h op
    s.2 :: runTrace s.1 rest

/-- Modelled from the spec: well-formedness of the blockhash queue as
established at construction and preserved by every advance — the queue is
nonempty, its capacity is at least one, and every stored hash was derived
from an earlier counter value. -/
def queueWf (q : BlockhashQueue) : Prop :=
  q.hashes ≠ [] ∧ 1 ≤ q.capacity ∧ ∀ x ∈ q.hashes, x < q.counter

instance (q : BlockhashQueue) : Decidable (queueWf q) := by
  unfold queueWf
  infer_instance

/-- A concrete configuration used by the closed witness statements. -/
def cfg0 : Config :=
  { sigverify := true, blockhashCheck := true, historyCapacity := 10,
    startingLamports := 0, maxAccountSize := 100,
    budget := { unitLimit := 1000, heapSize := 0, stackFrameSize := 0, logUnitCap := 0 } }

/-- A concrete freshly constructed harness used by the witnesses. -/
def h0 : Harness := newHarness cfg0

/-- A concrete transaction whose declared blockhash is absent from `h0`'s
queue, so that it fails blockhash validation. -/
def txBad : Tx :=
  { signature := 7, blockhash := 99, feePayer := 1, sigsValid := true,
    msgSize := 0, computeUnitPrice := 0, instructions := [] }

/-- A concrete account record within the configured maximum size. -/
def acct0 : Account :=
  { lamports := 42, owner := 3, data := [1, 2, 3], executable := false, rentEpoch := 0 }

/-- A concrete funded fee-payer account. -/
def payerAcct : Account :=
  { lamports := 1000, owner := 0, data := [], executable := false, rentEpoch := 0 }

/-- A concrete transaction declaring `h0`'s current blockhash, signed by
the funded payer, with no instructions. -/
def txValid : Tx :=
  { signature := 8, blockhash := 0, feePayer := 2, sigsValid := true,
    msgSize := 10, computeUnitPrice := 0, instructions := [] }

/-- `h0` with the fee payer of `txValid` funded. -/
def hFunded : Harness := { h0 with accounts := [(2, payerAcct)] }

/-- A concrete configuration with transaction-history retention disabled. -/
def cfgNoHist : Config := { cfg0 with historyCapacity := 0 }

/-- A fresh harness with history retention disabled and the fee payer of
`txValid` funded. -/
def hNoHist : Harness := { newHarness cfgNoHist with accounts := [(2, payerAcct)] }

/-- `h0` after the current blockhash was expired, so `txValid`'s declared
hash is no longer present. -/
def h0exp : Harness := expireBlockhash h0

/-- `h0` with signature 9 already recorded in history. -/
def hDup : Harness :=
  { h0 with history := [(9, Except.ok { computeUnits := 0, logs := [] })] }

/-- A concrete transaction for which every stage's failure condition holds
at once on `hDup`: recorded duplicate signature, absent blockhash,
rejected signatures, and a fee the unfunded payer cannot cover. -/
def txAllBad : Tx :=
  { signature := 9, blockhash := 99, feePayer := 3, sigsValid := false,
    msgSize := 10, computeUnitPrice := 0, instructions := [] }

/-- `txAllBad` with a valid blockhash, still failing signature
verification and fee coverage. -/
def txNoSig : Tx := { txAllBad with blockhash := 0 }

/-- `txNoSig` with verifying signatures, still failing fee coverage. -/
def txNoFee : Tx := { txNoSig with sigsValid := true }

/-- A concrete operation sequence exercising the facade. -/
def opsW : List Op :=
  [Op.airdrop 2 500, Op.getBal 2, Op.send txValid, Op.latestHash, Op.expire,
   Op.simulate txValid, Op.getAcc 2, Op.warp 42]

/-! ## Helper lemmas -/

/-- Setting then getting the same address in the account map yields the
written record. -/
theorem mapGet_mapSet_self (m : AccountMap) (a : Nat) (acc : Account) :
    mapGet (mapSet m a acc) a = some acc := by
  induction m with
  | nil => simp [mapGet, mapSet]
  | cons p rest ih =>
    obtain ⟨k, v⟩ := p
    by_cases hk : k = a
    · subst hk
      simp [mapGet, mapSet]
    · simp only [mapSet, beq_iff_eq, hk, if_false]
      simpa [mapGet, List.find?_cons, hk] using ih

/-- The lamports of the fee payer's account (with the default for an
uninitialized address) agree with `getBalance`'s view. -/
theorem getD_lamports (h : Harness) (p : Nat) :
    ((getAccount h p).getD defaultAccount).lamports = (getBalance h p).getD 0 := by
  unfold getBalance
  cases getAccount h p <;> rfl

/-- Recording an outcome with nonzero retention makes it the outcome found
by an immediate lookup of the same signature. -/
theorem lookupHistory_record_self (cap : Nat) (hist : History) (sig : Nat) (r : TxResult)
    (hcap : cap ≠ 0) :
    lookupHistory (recordHistory cap hist sig r) sig = some r := by
  obtain ⟨k, hk⟩ := Nat.exists_eq_succ_of_ne_zero hcap
  subst hk
  simp [recordHistory, lookupHistory, List.take_succ_cons, List.find?_cons]

/-- Unfolding `sendTransaction` on a pipeline failure. -/
theorem sendTransaction_of_error (h : Harness) (t : Tx) (f : FailedTx)
    (hp : runPipeline h t = Except.error f) :
    sendTransaction h t =
      ({ h with history := recordHistory h.cfg.historyCapacity h.history t.signature (Except.error f) },
       Except.error f) := by
  unfold sendTransaction
  rw [hp]

/-- Unfolding `sendTransaction` on a pipeline success. -/
theorem sendTransaction_of_ok (h : Harness) (t : Tx) (m : Meta) (delta : AccountMap)
    (hp : runPipeline h t = Except.ok (m, delta)) :
    sendTransaction h t =
      ({ h with accounts := delta
                history := recordHistory h.cfg.historyCapacity h.history t.signature (Except.ok m) },
       Except.ok m) := by
  unfold sendTransaction
  rw [hp]

/-- Instruction execution can only fail with `ComputeBudgetExceeded` or an
`InstructionError`. -/
theorem execInstrs_error_kind (limit : Nat) (is : List Instr) :
    ∀ idx units logs delta f,
      execInstrs limit idx units logs delta is = Except.error f →
      f.err = Err.computeBudgetExceeded ∨ ∃ i d, f.err = Err.instructionError i d := by
  induction is with
  | nil =>
    intro idx units logs delta f hf
    simp [execInstrs] at hf
  | cons i rest ih =>
    intro idx units logs delta f hf
    simp only [execInstrs] at hf
    split at hf
    · cases hf
      exact Or.inl rfl
    · split at hf
      · exact ih _ _ _ _ _ hf
      · cases hf
        exact Or.inr ⟨idx, i.errDetail, rfl⟩

/-- A pipeline failure carries one of the five stage errors. -/
theorem runPipeline_error_kind (h : Harness) (t : Tx) (f : FailedTx)
    (hp : runPipeline h t = Except.error f) :
    f.err = Err.alreadyProcessed ∨ f.err = Err.blockhashNotFound ∨
    f.err = Err.signatureVerificationFailed ∨ f.err = Err.insufficientFundsForFee ∨
    f.err = Err.computeBudgetExceeded ∨ ∃ i d, f.err = Err.instructionError i d := by
  simp only [runPipeline] at hp
  split at hp
  · cases hp; exact Or.inl rfl
  · split at hp
    · cases hp; exact Or.inr (Or.inl rfl)
    · split at hp
      · cases hp; exact Or.inr (Or.inr (Or.inl rfl))
      · split at hp
        · cases hp; exact Or.inr (Or.inr (Or.inr (Or.inl rfl)))
        · split at hp
          · cases hp
          · rename_i f' hexec
            cases hp
            rcases execInstrs_error_kind _ _ _ _ _ _ _ hexec with hk | hk
            · exact Or.inr (Or.inr (Or.inr (Or.inr (Or.inl hk))))
            · exact Or.inr (Or.inr (Or.inr (Or.inr (Or.inr hk))))

/-- When the duplicate check cannot fire, a pipeline failure is never
`AlreadyProcessed`. -/
theorem runPipeline_no_dup_error (h : Harness) (t : Tx) (f : FailedTx)
    (hdup : dupCheckFails h t = false)
    (hp : runPipeline h t = Except.error f) :
    f.err ≠ Err.alreadyProcessed := by
  simp only [runPipeline, hdup, Bool.false_eq_true, if_false] at hp
  split at hp
  · cases hp; intro hc; cases hc
  · split at hp
    · cases hp; intro hc; cases hc
    · split at hp
      · cases hp; intro hc; cases hc
      · split at hp
        · cases hp
        · rename_i f' hexec
          cases hp
          rcases execInstrs_error_kind _ _ _ _ _ _ _ hexec with hk | ⟨i, d, hk⟩ <;>
            · rw [hk]; intro hc; cases hc

/-! ## Claim theorems -/

/-- C1: for every transaction that fails at any pipeline stage (duplicate
check, blockhash validation, signature verification, fee deduction, or
instruction execution), `send_transaction` leaves the Account Store state
identical to what it was immediately before the call — no account balance,
owner, data, or flag is changed by a failed transaction. -/
theorem send_fail_preserves_accounts (h : Harness) (t : Tx) (f : FailedTx)
    (hf : (sendTransaction h t).2 = Except.error f) :
    (sendTransaction h t).1.accounts = h.accounts := by
  cases hp : runPipeline h t with
  | ok v =>
    obtain ⟨m, delta⟩ := v
    rw [sendTransaction_of_ok h t m delta hp] at hf
    simp at hf
  | error g =>
    rw [sendTransaction_of_error h t g hp]

/-- Witness for C1: a concrete transaction failing blockhash validation
leaves the concrete harness's Account Store untouched. -/
theorem send_fail_preserves_accounts_witness :
    (sendTransaction h0 txBad).1.accounts = h0.accounts :=
  send_fail_preserves_accounts h0 txBad
    { err := Err.blockhashNotFound, meta := { computeUnits := 0, logs := [] } } (by decide)

/-- C2: `simulate_transaction` never mutates the harness state (in
particular the Account Store), whatever the outcome, and it returns
exactly the result — metadata on success, error with metadata on
failure — that `send_transaction` would produce from the same starting
state. -/
theorem simulate_pure_and_matches_send (h : Harness) (t : Tx) :
    (simulateTransaction h t).1 = h ∧
    (simulateTransaction h t).2 = (sendTransaction h t).2 := by
  refine ⟨rfl, ?_⟩
  unfold simulateTransaction sendTransaction
  cases hp : runPipeline h t with
  | ok v => obtain ⟨m, d⟩ := v; rfl
  | error f => rfl

/-- C3: writing any account record whose data does not exceed the
configured maximum account size via `set_account` succeeds, and an
immediately following `get_account` returns exactly the written record,
all fields included. -/
theorem set_get_roundtrip (h : Harness) (p : Nat) (a : Account)
    (hsz : a.data.length ≤ h.cfg.maxAccountSize) :
    ∃ h', setAccount h p a = Except.ok h' ∧ getAccount h' p = some a := by
  refine ⟨{ h with accounts := mapSet h.accounts p a }, ?_, ?_⟩
  · unfold setAccount
    rw [if_neg (by omega)]
  · exact mapGet_mapSet_self h.accounts p a

/-- Witness for C3 at a concrete harness and account record. -/
theorem set_get_roundtrip_witness :
    ∃ h', setAccount h0 5 acct0 = Except.ok h' ∧ getAccount h' 5 = some acct0 :=
  set_get_roundtrip h0 5 acct0 (by decide)

/-- C4: when the credit does not overflow the unsigned 64-bit balance,
`airdrop(P, X)` succeeds and a following `get_balance(P)` returns exactly
the pre-existing balance plus X (zero for a previously uninitialized
address); `airdrop` fails exactly on overflow. -/
theorem airdrop_correct (h : Harness) (p x : Nat) :
    ((getBalance h p).getD 0 + x < 2 ^ 64 →
      ∃ h', airdrop h p x = Except.ok h' ∧
        getBalance h' p = some ((getBalance h p).getD 0 + x)) ∧
    (2 ^ 64 ≤ (getBalance h p).getD 0 + x →
      airdrop h p x = Except.error Err.arithmeticOverflow) := by
  have hbal := getD_lamports h p
  constructor
  · intro hov
    refine ⟨{ h with accounts := mapSet h.accounts p (creditedAccount h p x) }, ?_, ?_⟩
    · unfold airdrop
      rw [if_neg (by rw [hbal]; exact Nat.not_le.mpr hov)]
    · have hget : getAccount { h with accounts := mapSet h.accounts p (creditedAccount h p x) } p
          = some (creditedAccount h p x) :=
        mapGet_mapSet_self h.accounts p (creditedAccount h p x)
      unfold getBalance
      rw [hget]
      simp only [Option.map_some']
      unfold creditedAccount
      rw [hbal]
      rfl
  · intro hov
    unfold airdrop
    rw [if_pos (by rw [hbal]; exact hov)]

/-- Witness for C4: airdropping 500 lamports to an uninitialized concrete
address yields balance 500. -/
theorem airdrop_correct_witness :
    ∃ h', airdrop h0 2 500 = Except.ok h' ∧
      getBalance h' 2 = some ((getBalance h0 2).getD 0 + 500) :=
  (airdrop_correct h0 2 500).1 (by decide)

/-- C5: with blockhash checking enabled, a transaction whose declared
blockhash is no longer present in the queue (for example after
`expire_blockhash()`) fails with `BlockhashNotFound` with no fee deducted
and every account unchanged — provided the earlier duplicate check does
not fire first — and `latest_blockhash()` after `expire_blockhash()`
differs from `latest_blockhash()` before it on any well-formed queue. -/
theorem expired_blockhash_rejected (h : Harness) (t : Tx)
    (hbc : h.cfg.blockhashCheck = true)
    (hdup : dupCheckFails h t = false)
    (habs : h.queue.isValid t.blockhash = false)
    (hwf : queueWf h.queue) :
    (sendTransaction h t).2 =
      Except.error { err := Err.blockhashNotFound, meta := { computeUnits := 0, logs := [] } } ∧
    (sendTransaction h t).1.accounts = h.accounts ∧
    latestBlockhash (expireBlockhash h) ≠ latestBlockhash h := by
  have hbf : blockhashCheckFails h t = true := by
    simp [blockhashCheckFails, hbc, habs]
  have hp : runPipeline h t =
      Except.error { err := Err.blockhashNotFound, meta := { computeUnits := 0, logs := [] } } := by
    simp [runPipeline, hdup, hbf]
  refine ⟨?_, ?_, ?_⟩
  · rw [sendTransaction_of_error h t _ hp]
  · rw [sendTransaction_of_error h t _ hp]
  · obtain ⟨hne, _hcap, hlt⟩ := hwf
    show h.queue.counter ≠ h.queue.hashes.headD 0
    cases hq : h.queue.hashes with
    | nil => exact absurd hq hne
    | cons a rest =>
      have ha : a < h.queue.counter := hlt a (by rw [hq]; exact List.mem_cons_self a rest)
      simp only [List.headD_cons]
      omega

/-- Witness for C5: `txValid` declares the pre-expiry blockhash, the
harness has been expired, and the rejection plus queue-freshness facts
hold concretely. -/
theorem expired_blockhash_rejected_witness :
    (sendTransaction h0exp txValid).2 =
      Except.error { err := Err.blockhashNotFound, meta := { computeUnits := 0, logs := [] } } ∧
    (sendTransaction h0exp txValid).1.accounts = h0exp.accounts ∧
    latestBlockhash (expireBlockhash h0exp) ≠ latestBlockhash h0exp :=
  expired_blockhash_rejected h0exp txValid (by decide) (by decide) (by decide) (by decide)

/-- C6: duplicate-signature rejection is active exactly when the
transaction-history capacity is positive — with capacity zero the send
path can never fail with `AlreadyProcessed` (and, concretely, the same
transaction submitted twice on a funded capacity-zero harness succeeds
both times), whereas with positive capacity replaying a transaction whose
signature was just recorded fails with `AlreadyProcessed`. -/
theorem duplicate_rejection_iff_history (h : Harness) (t : Tx) (m : Meta) :
    (h.cfg.historyCapacity = 0 →
      ∀ f, (sendTransaction h t).2 = Except.error f → f.err ≠ Err.alreadyProcessed) ∧
    (0 < h.cfg.historyCapacity → (sendTransaction h t).2 = Except.ok m →
      (sendTransaction (sendTransaction h t).1 t).2 =
        Except.error { err := Err.alreadyProcessed, meta := { computeUnits := 0, logs := [] } }) ∧
    ((sendTransaction hNoHist txValid).2 = Except.ok { computeUnits := 0, logs := [] } ∧
      (sendTransaction (sendTransaction hNoHist txValid).1 txValid).2 =
        Except.ok { computeUnits := 0, logs := [] }) := by
  refine ⟨?_, ?_, by decide, by decide⟩
  · intro hcap f hf
    have hdup : dupCheckFails h t = false := by
      simp [dupCheckFails, hcap]
    cases hp : runPipeline h t with
    | ok v =>
      obtain ⟨m', delta⟩ := v
      rw [sendTransaction_of_ok h t m' delta hp] at hf
      simp at hf
    | error g =>
      rw [sendTransaction_of_error h t g hp] at hf
      simp only [Prod.snd] at hf
      have hg : g = f := by
        injection hf
      subst hg
      exact runPipeline_no_dup_error h t g hdup hp
  · intro hcap hok
    cases hp : runPipeline h t with
    | error g =>
      rw [sendTransaction_of_error h t g hp] at hok
      simp at hok
    | ok v =>
      obtain ⟨m', delta⟩ := v
      rw [sendTransaction_of_ok h t m' delta hp] at hok ⊢
      have hlook : lookupHistory
          (recordHistory h.cfg.historyCapacity h.history t.signature (Except.ok m'))
          t.signature = some (Except.ok m') :=
        lookupHistory_record_self h.cfg.historyCapacity h.history t.signature
          (Except.ok m') (by omega)
      have hdup : dupCheckFails
          { h with accounts := delta
                   history := recordHistory h.cfg.historyCapacity h.history t.signature
                     (Except.ok m') } t = true := by
        simp [dupCheckFails, hlook]
        omega
      have hp2 : runPipeline
          { h with accounts := delta
                   history := recordHistory h.cfg.historyCapacity h.history t.signature
                     (Except.ok m') } t =
          Except.error { err := Err.alreadyProcessed, meta := { computeUnits := 0, logs := [] } } := by
        simp [runPipeline, hdup]
      rw [sendTransaction_of_error _ t _ hp2]

/-- Witness for C6: on the funded harness with capacity 10, sending
`txValid` then replaying it yields `AlreadyProcessed`. -/
theorem duplicate_rejection_iff_history_witness :
    (sendTransaction (sendTransaction hFunded txValid).1 txValid).2 =
      Except.error { err := Err.alreadyProcessed, meta := { computeUnits := 0, logs := [] } } :=
  (duplicate_rejection_iff_history hFunded txValid { computeUnits := 0, logs := [] }).2.1
    (by decide) (by decide)

/-- C7: the pipeline stages run in the strict fixed order duplicate check,
blockhash validation, signature verification, fee deduction, instruction
execution, so when several stages' failure conditions hold simultaneously
the error returned is that of the earliest such stage. -/
theorem pipeline_stage_order (h : Harness) (t : Tx) :
    (dupCheckFails h t = true →
      runPipeline h t =
        Except.error { err := Err.alreadyProcessed, meta := { computeUnits := 0, logs := [] } }) ∧
    (dupCheckFails h t = false → blockhashCheckFails h t = true →
      runPipeline h t =
        Except.error { err := Err.blockhashNotFound, meta := { computeUnits := 0, logs := [] } }) ∧
    (dupCheckFails h t = false → blockhashCheckFails h t = false → sigCheckFails h t = true →
      runPipeline h t =
        Except.error { err := Err.signatureVerificationFailed, meta := { computeUnits := 0, logs := [] } }) ∧
    (dupCheckFails h t = false → blockhashCheckFails h t = false → sigCheckFails h t = false →
      feeCheckFails h t = true →
      runPipeline h t =
        Except.error { err := Err.insufficientFundsForFee, meta := { computeUnits := 0, logs := [] } }) := by
  refine ⟨?_, ?_, ?_, ?_⟩
  · intro h1
    simp [runPipeline, h1]
  · intro h1 h2
    simp [runPipeline, h1, h2]
  · intro h1 h2 h3
    simp [runPipeline, h1, h2, h3]
  · intro h1 h2 h3 h4
    simp [runPipeline, h1, h2, h3, h4]

/-- Witness for C7: on concrete inputs where several stage conditions hold
at once, the earliest stage's error is returned — in particular a recorded
duplicate with an expired blockhash yields `AlreadyProcessed`, and a
transaction failing both signature verification and fee coverage yields
`SignatureVerificationFailed`. -/
theorem pipeline_stage_order_witness :
    runPipeline hDup txAllBad =
      Except.error { err := Err.alreadyProcessed, meta := { computeUnits := 0, logs := [] } } ∧
    runPipeline h0 txAllBad =
      Except.error { err := Err.blockhashNotFound, meta := { computeUnits := 0, logs := [] } } ∧
    runPipeline h0 txNoSig =
      Except.error { err := Err.signatureVerificationFailed, meta := { computeUnits := 0, logs := [] } } ∧
    runPipeline h0 txNoFee =
      Except.error { err := Err.insufficientFundsForFee, meta := { computeUnits := 0, logs := [] } } :=
  ⟨(pipeline_stage_order hDup txAllBad).1 (by decide),
   (pipeline_stage_order h0 txAllBad).2.1 (by decide) (by decide),
   (pipeline_stage_order h0 txNoSig).2.2.1 (by decide) (by decide) (by decide),
   (pipeline_stage_order h0 txNoFee).2.2.2 (by decide) (by decide) (by decide) (by decide)⟩

/-- C8: on a freshly constructed harness, reading every supported sysvar
(Clock, Rent, EpochSchedule) returns the library-defined default record
and never an error, because construction seeds every sysvar before any
caller write. -/
theorem fresh_sysvar_defaults (cfg : Config) :
    getClockSysvar (newHarness cfg) = Clock.defaultValue ∧
    getRentSysvar (newHarness cfg) = Rent.defaultValue ∧
    getEpochScheduleSysvar (newHarness cfg) = EpochSchedule.defaultValue :=
  ⟨rfl, rfl, rfl⟩

/-- C9: the harness is deterministic — two independent freshly constructed
instances with the same configuration produce identical observable results
at every step of any finite sequence of facade operations. -/
theorem harness_deterministic (cfg : Config) (ops : List Op) (h1 h2 : Harness)
    (e1 : h1 = newHarness cfg) (e2 : h2 = newHarness cfg) :
    runTrace h1 ops = runTrace h2 ops := by
  subst e1
  subst e2
  rfl

/-- Witness for C9 at a concrete configuration and operation sequence. -/
theorem harness_deterministic_witness :
    runTrace (newHarness cfg0) opsW = runTrace (newHarness cfg0) opsW :=
  harness_deterministic cfg0 opsW (newHarness cfg0) (newHarness cfg0) rfl rfl

end LiteSVM
